import Mathlib

/-!
Shallow embedding of the pharynx image-processing pipeline
(`pharynx_redox/image_processing.py`) over exact rationals.

Images are rectangular grids of rationals (`List (List ℚ)`), binary masks
are grids of booleans.  Pixel coordinates are `(row, col)` pairs; in the
source a 2-D slice arrives with dims `(y, x)`, so axis 0 is the row / `y`
axis and axis 1 is the column / `x` axis.  Transcendental kernels the
source takes from numpy/scipy (`sin`, `cos`, `arctan`, the Gaussian pdf,
the least-squares fit, the resampling warp) are passed in as explicit
function parameters: every claim proved below is independent of their
values, and theorems quantify over them.
-/

set_option linter.unusedVariables false

namespace WormAnalysis

/-- A binary segmentation mask: rows of booleans. -/
abbrev Mask := List (List Bool)

/-- A fluorescence image as a grid of intensities. -/
abbrev Img := List (List ℚ)

/-- `np.linspace(a, b, n)` over ℚ: `n` evenly spaced samples from `a` to `b`
inclusive (`n = 1` gives `[a]`, matching numpy). -/
def linspaceQ (a b : ℚ) (n : ℕ) : List ℚ :=
  if n = 0 then []
  else if n = 1 then [a]
  else (List.range n).map (fun (i : ℕ) => a + (b - a) * (i : ℚ) / ((n : ℚ) - 1))

/-- Horner evaluation of a coefficient list (lowest degree first), as
`numpy.polynomial.polynomial.polyval`. -/
def polyEval (coef : List ℚ) (x : ℚ) : ℚ :=
  coef.foldr (fun c acc => c + x * acc) 0

/-- Coefficient list of the derivative, as `polyder`. -/
def polyDer (coef : List ℚ) : List ℚ :=
  (coef.drop 1).zipWith (fun c i => c * (i + 1)) ((List.range (coef.length - 1)).map (fun i => (i : ℚ)))

/-- A fitted midline: a `numpy.polynomial.Polynomial` with an explicit
`domain` and coefficients expressed in the default window `[-1, 1]`. -/
structure Midline where
  domain : ℚ × ℚ
  coef : List ℚ
  deriving DecidableEq, Repr

/-- The affine map from `domain` onto the window `[-1, 1]` that numpy
applies before evaluating the stored coefficients. -/
def Midline.toWindow (m : Midline) (x : ℚ) : ℚ :=
  -1 + 2 * (x - m.domain.1) / (m.domain.2 - m.domain.1)

/-- Evaluation `m(x)` of the scaled polynomial. -/
def Midline.eval (m : Midline) (x : ℚ) : ℚ :=
  polyEval m.coef (m.toWindow x)

/-- Evaluation of `m.deriv()` at `x`: numpy differentiates the stored
coefficients in window space and keeps the same domain mapping. -/
def Midline.derivEval (m : Midline) (x : ℚ) : ℚ :=
  polyEval (polyDer m.coef) (m.toWindow x)

/-- The `x` coordinates produced by `mid.linspace(n)`: evenly spaced over
the midline's domain. -/
def Midline.linspaceXs (m : Midline) (n : ℕ) : List ℚ :=
  linspaceQ m.domain.1 m.domain.2 n

/-- Foreground pixel coordinates of a mask in raster (row-major) order,
as `np.nonzero` / `skimage.measure.label` scan order produces them. -/
def foregroundPixels (mask : Mask) : List (ℕ × ℕ) :=
  mask.enum.flatMap (fun ri =>
    ri.2.enum.filterMap (fun cj => if cj.2 then some (ri.1, cj.1) else none))

/-- 8-connectivity adjacency between two pixels (skimage `label` default
connectivity for 2-D). -/
def adj8 (p q : ℕ × ℕ) : Bool :=
  decide (p ≠ q) && decide (p.1 ≤ q.1 + 1) && decide (q.1 ≤ p.1 + 1)
    && decide (p.2 ≤ q.2 + 1) && decide (q.2 ≤ p.2 + 1)

/-- Grow a connected component: repeatedly absorb the pixels of `rest`
adjacent to the component; the fuel (≥ `rest.length`) bounds the rounds. -/
def growComponent : ℕ → List (ℕ × ℕ) → List (ℕ × ℕ) → List (ℕ × ℕ) × List (ℕ × ℕ)
  | 0, comp, rest => (comp, rest)
  | fuel + 1, comp, rest =>
    let step := rest.partition (fun q => comp.any (fun p => adj8 p q))
    match step.1 with
    | [] => (comp, rest)
    | newPts => growComponent fuel (comp ++ newPts) step.2

/-- Split a pixel list into 8-connected components.  The first component is
the one containing the first pixel in raster order, i.e. label 1 of
`skimage.measure.label`, which is what `regionprops(...)[0]` selects. -/
def componentsAux : ℕ → List (ℕ × ℕ) → List (List (ℕ × ℕ))
  | 0, _ => []
  | _ + 1, [] => []
  | fuel + 1, p :: rest =>
    let g := growComponent rest.length [p] rest
    g.1 :: componentsAux fuel g.2

/-- Connected components of a foreground pixel list. -/
def connectedComponents (px : List (ℕ × ℕ)) : List (List (ℕ × ℕ)) :=
  componentsAux px.length px

/-- `regionprops` bounding box `(min_row, min_col, max_row, max_col)` with
the skimage half-open convention: `max_row`/`max_col` are one past the last
foreground row/column. -/
def bboxOf (comp : List (ℕ × ℕ)) : ℕ × ℕ × ℕ × ℕ :=
  match comp with
  | [] => (0, 0, 0, 0)
  | c :: cs =>
    (cs.foldl (fun m q => min m q.1) c.1,
     cs.foldl (fun m q => min m q.2) c.2,
     cs.foldl (fun m q => max m q.1) c.1 + 1,
     cs.foldl (fun m q => max m q.2) c.2 + 1)

/-- `calculate_midline(rot_seg_img, degree, pad)`.

The source takes the first labelled region, uses `coords[:, 1]` as the
`x` data and `coords[:, 0]` as the `y` data, and unpacks the bounding box
as `left_bound, _, _, right_bound = rp.bbox`, i.e. `left_bound` is the
box's `min_row` and `right_bound` its (exclusive) `max_col`; the domain
passed to `Polynomial.fit` is `[left_bound - pad, right_bound + pad]`.
The least-squares kernel of `Polynomial.fit` is abstracted as `fitFn`
(the suppressed `RankWarning` never escapes it); no claim below depends
on the fitted coefficients. -/
def calculate_midline (fitFn : List ℕ → List ℕ → ℕ → List ℚ)
    (rot_seg_img : Mask) (degree : ℕ) (pad : ℕ) : Option Midline :=
  match connectedComponents (foregroundPixels rot_seg_img) with
  | [] => none
  | r :: _ =>
    let b := bboxOf r
    some ⟨((b.1 : ℚ) - pad, (b.2.2.2 : ℚ) + pad),
          fitFn (r.map Prod.snd) (r.map Prod.fst) degree⟩

/-- Modelled from the spec: the fit domain as the spec words it, namely
`[left_bound - pad, right_bound + pad]` where `left_bound` and
`right_bound` are the left and right *column* edges of the object's
bounding box (right edge in the same half-open convention the box uses). -/
def spec_midline_domain (mask : Mask) (pad : ℕ) : Option (ℚ × ℚ) :=
  match connectedComponents (foregroundPixels mask) with
  | [] => none
  | r :: _ =>
    let b := bboxOf r
    some ((b.2.1 : ℚ) - pad, (b.2.2.2 : ℚ) + pad)

/-- The concrete mask exhibiting the domain bug: a 4×4 mask whose single
foreground pixel sits at row 3, column 1, so `min_row = 3 ≠ 1 = min_col`. -/
def maskRowColSplit : Mask :=
  [[false, false, false, false],
   [false, false, false, false],
   [false, false, false, false],
   [false, true, false, false]]

/-- A throwaway least-squares kernel used to instantiate `fitFn` in
concrete evaluations (the claims never inspect fitted coefficients). -/
def trivialFit : List ℕ → List ℕ → ℕ → List ℚ := fun _ _ _ => [0]

/-- Result of `measure_under_midline`: either a 1-D profile or a 2-D band,
mirroring the ndarray ranks the source can return. -/
inductive NDArr where
  | d1 : List ℚ → NDArr
  | d2 : List (List ℚ) → NDArr
  deriving DecidableEq, Repr

/-- `true` exactly on rank-1 results. -/
def NDArr.isOneD : NDArr → Bool
  | .d1 _ => true
  | .d2 _ => false

/-- Row lengths of a result: `[length]` for a 1-D profile, the per-row
lengths for a 2-D band.  A rank-`(k, n)` band maps to `replicate k n`. -/
def NDArr.rowLengths : NDArr → List ℕ
  | .d1 v => [v.length]
  | .d2 m => m.map List.length

/-- The endpoint swap-correction loop of `measure_under_midline`: segments
are `(x0, x1, y0, y1)`; a segment whose first endpoint has the smaller `y`
gets both coordinates of its endpoints exchanged.  The Python loop mutates
`xs0[i], xs1[i], ys0[i], ys1[i]` while zipping over the original arrays,
which reads each index before writing it, so it acts pointwise. -/
def swapSegments : List (ℚ × ℚ × ℚ × ℚ) → List (ℚ × ℚ × ℚ × ℚ)
  | [] => []
  | (x0, x1, y0, y1) :: rest =>
    (if y0 < y1 then (x1, x0, y1, y0) else (x0, x1, y0, y1)) :: swapSegments rest

/-- Vectorized `np.linspace(v0, v1, num)`: row `i` interpolates elementwise
between the two vectors (`num = 1` gives the start vector, as numpy). -/
def linspaceVecs (v0 v1 : List ℚ) (num : ℕ) : List (List ℚ) :=
  (List.range num).map (fun (i : ℕ) =>
    List.zipWith (fun a b => if num = 1 then a else a + (b - a) * (i : ℚ) / ((num : ℚ) - 1)) v0 v1)

/-- `np.average(rows, axis=0, weights=w)` where every column shares the
weight vector `wts` (as the tiled Gaussian weights do): column `j` is the
weighted mean of the rows' entries at `j`. -/
def weightedColAverage (rows : List (List ℚ)) (wts : List ℚ) (ncols : ℕ) : List ℚ :=
  (List.range ncols).map (fun j =>
    (List.zipWith (fun r wt => wt * r.getD j 0) rows wts).sum / wts.sum)

/-- The `try:` body of `measure_under_midline`.  `none` models an escaping
exception: the `AttributeError` from calling `.linspace` on a `None`
midline, and the `ZeroDivisionError` `np.average` raises when the weights
sum to zero.  `thickness` is the integer point count the source feeds to
`np.linspace` as `n_line_pts`; `sinF`/`cosF`/`atanF` stand for the numpy
kernels and `pdfF x scale` for `scipy.stats.norm.pdf(x, scale=scale)`;
the image `fl` is abstracted as the interpolation `ndi.map_coordinates`
computes, a total function of the two (axis-0, axis-1) coordinates. -/
def measure_under_midline_try (sinF cosF atanF : ℚ → ℚ) (pdfF : ℚ → ℚ → ℚ)
    (fl : ℚ → ℚ → ℚ) (mid : Option Midline) (n_points thickness order : ℕ)
    (norm_scale : ℚ) (flatten : Bool) : Option NDArr :=
  match mid with
  | none => none
  | some m =>
    if thickness = 0 then
      let xs := m.linspaceXs n_points
      let ys := xs.map m.eval
      some (NDArr.d1 ((xs.zip ys).map (fun c => fl c.1 c.2)))
    else
      let xs := m.linspaceXs n_points
      let ys := xs.map m.eval
      let normal_slopes := xs.map (fun x => -1 / m.derivEval x)
      let normal_thetas := normal_slopes.map atanF
      let mag : ℚ := (thickness : ℚ) / 2
      let x0 := normal_thetas.map (fun θ => cosF θ * mag)
      let y0 := normal_thetas.map (fun θ => sinF θ * mag)
      let x1 := normal_thetas.map (fun θ => cosF θ * (-mag))
      let y1 := normal_thetas.map (fun θ => sinF θ * (-mag))
      let xs0 := List.zipWith (· + ·) xs x0
      let xs1 := List.zipWith (· + ·) xs x1
      let ys0 := List.zipWith (· + ·) ys y0
      let ys1 := List.zipWith (· + ·) ys y1
      let segs := swapSegments (List.zipWith
        (fun a b => (a.1, b.1, a.2, b.2)) (xs0.zip ys0) (xs1.zip ys1))
      let sxs0 := segs.map (fun s => s.1)
      let sxs1 := segs.map (fun s => s.2.1)
      let sys0 := segs.map (fun s => s.2.2.1)
      let sys1 := segs.map (fun s => s.2.2.2)
      let all_xs := linspaceVecs sxs0 sxs1 thickness
      let all_ys := linspaceVecs sys0 sys1 thickness
      let straightened := List.zipWith (List.zipWith fl) all_xs all_ys
      if flatten then
        let w := (linspaceQ (-1) 1 thickness).map (fun t => pdfF t norm_scale)
        if w.sum = 0 then none
        else some (NDArr.d1 (weightedColAverage straightened w n_points))
      else some (NDArr.d2 straightened)

/-- `measure_under_midline`: the `try:` body with the bare `except:`
fallback `np.zeros((1, n_points))` — a rank-2 array with a single
all-zero row. -/
def measure_under_midline (sinF cosF atanF : ℚ → ℚ) (pdfF : ℚ → ℚ → ℚ)
    (fl : ℚ → ℚ → ℚ) (mid : Option Midline) (n_points thickness order : ℕ)
    (norm_scale : ℚ) (flatten : Bool) : NDArr :=
  (measure_under_midline_try sinF cosF atanF pdfF fl mid n_points thickness order
      norm_scale flatten).getD (NDArr.d2 [List.replicate n_points 0])

/-- The midline-broadcast assignment
`midlines.loc[dict(wavelength="470")] = midlines.sel(wavelength="410")`
executed when `frame_specific` is false: the entry of the literal
wavelength `"470"` is overwritten with the `"410"` entry of the same
animal and pair; every other wavelength keeps its own midline. -/
def broadcast_ref_midlines (midlines : ℕ → String → ℕ → Option Midline) :
    ℕ → String → ℕ → Option Midline :=
  fun a w p => if w = "470" then midlines a "410" p else midlines a w p

/-- `measure_under_midlines(fl_stack, midlines, n_points, frame_specific,
order, thickness, flatten)`.  The `.loc` assignment above mutates the
caller's `midlines` array in place, so the embedding passes state
explicitly: the second component is the midline collection as the caller
observes it after the call.  The source forwards only `n_points`,
`thickness` and `order` to the per-frame sampler, so `flatten` and
`norm_scale` take the sampler's own defaults `True` and `1`. -/
def measure_under_midlines (sinF cosF atanF : ℚ → ℚ) (pdfF : ℚ → ℚ → ℚ)
    (fl_stack : ℕ → String → ℕ → (ℚ → ℚ → ℚ))
    (midlines : ℕ → String → ℕ → Option Midline)
    (n_points : ℕ) (frame_specific : Bool) (order thickness : ℕ) :
    (ℕ → String → ℕ → NDArr) × (ℕ → String → ℕ → Option Midline) :=
  let mids := if frame_specific then midlines else broadcast_ref_midlines midlines
  (fun a w p =>
    measure_under_midline sinF cosF atanF pdfF (fl_stack a w p) (mids a w p)
      n_points thickness order 1 true,
   mids)

/-- Sample midline with domain `[1, 3]` (constant zero curve). -/
def midA : Midline := ⟨(1, 3), [0]⟩

/-- Sample midline with domain `[5, 9]` (constant zero curve). -/
def midB : Midline := ⟨(5, 9), [0]⟩

/-- A constant stand-in for the transcendental kernels. -/
def zeroFn : ℚ → ℚ := fun _ => 0

/-- A constant one for the `cos` slot. -/
def oneFn : ℚ → ℚ := fun _ => 1

/-- A strictly positive stand-in for the Gaussian pdf. -/
def onePdf : ℚ → ℚ → ℚ := fun _ _ => 1

/-- An image whose interpolated value equals the axis-0 coordinate. -/
def coordImg : ℚ → ℚ → ℚ := fun x _ => x

/-- A concrete midline collection keyed by wavelength: `"410" ↦ midA` and
`"560" ↦ midB`, exercising a measurement channel other than `"470"`. -/
def midsWith560 : ℕ → String → ℕ → Option Midline :=
  fun _ w _ => if w = "410" then some midA else if w = "560" then some midB else none

/-- A concrete midline collection keyed by wavelength: `"410" ↦ midA` and
`"470" ↦ midB`, whose `"470"` entry differs from its `"410"` entry. -/
def midsWith470 : ℕ → String → ℕ → Option Midline :=
  fun _ w _ => if w = "410" then some midA else if w = "470" then some midB else none

/-- A fluorescence stack whose every frame is `coordImg`. -/
def coordStack : ℕ → String → ℕ → (ℚ → ℚ → ℚ) := fun _ _ _ => coordImg

/-- Python `int()` applied to a rational: truncation toward zero. -/
def pyInt (q : ℚ) : ℤ :=
  if 0 ≤ q then Int.floor q else -Int.floor (-q)

/-- The Python slice `l[idx:-idx]` on a row of length `n`.  The stop index
`-idx` denotes `n - idx` when `idx > 0`, but `-0` is just `0`, so
`idx = 0` yields the empty slice `l[0:0]`. -/
def pySliceClip (l : List ℚ) (idx : ℕ) : List ℚ :=
  let stop := if idx = 0 then 0 else l.length - idx
  (l.take stop).drop idx

/-- The sample-window of `normalize_images_single_wvl`: the positions of a
length-`n` profile that survive `profiles[:, idx:-idx]` with
`idx = int(n * percent_to_clip / 100)`. -/
def clip_window (n : ℕ) (percent_to_clip : ℚ) : List ℕ :=
  let idx := (pyInt ((n : ℚ) * percent_to_clip / 100)).toNat
  let stop := if idx = 0 then 0 else n - idx
  (List.range n).filter (fun i => decide (idx ≤ i) && decide (i < stop))

/-- Mean of a list (`np.mean`; the empty case is the junk value 0 where
numpy would produce NaN — it is reachable only on the error path below). -/
def meanQ (l : List ℚ) : ℚ := l.sum / l.length

/-- Minimum with default 0 for the empty list. -/
def minQD : List ℚ → ℚ
  | [] => 0
  | x :: xs => xs.foldl min x

/-- Maximum with default 0 for the empty list. -/
def maxQD : List ℚ → ℚ
  | [] => 0
  | x :: xs => xs.foldl max x

/-- `normalize_images_single_wvl(fl_imgs, profiles, percent_to_clip)`.

Each profile row is clipped with the Python slice `[idx:-idx]`; the means
are taken over the clipped rows, then mins/maxs of the mean-subtracted
clipped rows, and each frame is rescaled as
`(img - mean - min) / (max - min)`.  When the clipped width is zero and at
least one frame exists, `np.min` raises
`ValueError: zero-size array to reduction operation minimum which has no
identity` (after `np.mean` has already produced NaN); the embedding
returns that as an `Except.error`.  The dimensionality guards of the
source are enforced by the types here (3-D images, 2-D profiles). -/
def normalize_images_single_wvl (fl_imgs : List Img) (profiles : List (List ℚ))
    (percent_to_clip : ℚ) : Except String (List Img) :=
  let n := (profiles.head?.elim 0 List.length)
  let idx := (pyInt ((n : ℚ) * percent_to_clip / 100)).toNat
  let clipped := profiles.map (fun pr => pySliceClip pr idx)
  if profiles ≠ [] ∧ (clipped.head?.elim 0 List.length) = 0 then
    .error "zero-size array to reduction operation minimum which has no identity"
  else
    .ok (List.zipWith
      (fun img pr =>
        let mu := meanQ pr
        let centered := pr.map (fun v => v - mu)
        let mn := minQD centered
        let mx := maxQD centered
        img.map (fun row => row.map (fun v => (v - mu - mn) / (mx - mn))))
      fl_imgs clipped)

/-- Case-insensitive check for the substring `"tl"` used to recognize the
transmitted-light channel. -/
def hasTLchars : List Char → Bool
  | [] => false
  | c :: rest =>
    (c = 't' && (match rest with | c2 :: _ => c2 = 'l' | [] => false)) || hasTLchars rest

/-- `"tl" in wavelength.lower()`. -/
def hasTL (s : String) : Bool :=
  hasTLchars (s.toLower.toList)

/-- Maximum intensity of an image, `fl_img.max()` (junk 0 on an empty
grid, where xarray would fault; real frames are nonempty). -/
def imgMax (img : Img) : ℚ :=
  maxQD (img.map maxQD)

/-- The elementwise threshold `fl_img > t`. -/
def imgGT (img : Img) (t : ℚ) : Mask :=
  img.map (fun row => row.map (fun v => decide (t < v)))

/-- Shape of a mask as its list of row lengths. -/
def maskShape (m : Mask) : List ℕ := m.map List.length

/-- Shape of an image as its list of row lengths. -/
def imgShape (img : Img) : List ℕ := img.map List.length

/-- `get_area_of_largest_object(S)`: despite its name the source reads
`regionprops(label(S))[0].area`, the area of the *first* labelled
component, with the `IndexError` on an empty mask mapped to 0. -/
def get_area_of_largest_object (S : Mask) : ℕ :=
  match connectedComponents (foregroundPixels S) with
  | [] => 0
  | r :: _ => r.length

/-- The sensible-default mask `fl_img > fl_img.max() * 0.15` returned when
the threshold search escapes its bounds. -/
def default_seg (fl : Img) : Mask :=
  imgGT fl (imgMax fl * (15 / 100))

/-- The two sequential threshold adjustments of one loop body:
`p += 0.01` when the area overshoots, `p -= 0.01` when it undershoots. -/
def adjust_p (p : ℚ) (area : ℕ) : ℚ :=
  let p2 := if 550 < area then p + 1 / 100 else p
  if area < 350 then p2 - 1 / 100 else p2

/-- The `while` loop of `segment_pharynx` with `min_area = 350`,
`max_area = 550`.  `fuel` is `max_iter - i`, so the source's own guard
`if i >= max_iter: return S` is the `fuel = 0` case; the second result
component counts the fully executed loop bodies.  Note the source updates
the `area` variable from the mask of the *previous* iteration before
recomputing the threshold, which is mirrored by threading `area`
explicitly. -/
def segment_loop (fl : Img) (mx : ℚ) : ℕ → ℚ → ℕ → Mask → Mask × ℕ
  | 0, _, _, S => (S, 0)
  | fuel + 1, p, area, S =>
    if area < 350 ∨ 550 < area then
      let area2 := get_area_of_largest_object S
      let p3 := adjust_p p area2
      let S2 := imgGT fl (mx * p3)
      if p3 < 0 then (default_seg fl, 1)
      else if 9 / 10 < p3 then (default_seg fl, 1)
      else
        let r := segment_loop fl mx fuel p3 area2 S2
        (r.1, r.2 + 1)
    else (S, 0)

/-- `segment_pharynx(fl_img)` together with its loop-iteration count.  The
transmitted-light branch `seg[:] = 0` yields the all-background mask; the
search starts from `p = 0.15` with `max_iter = 300`. -/
def segment_pharynx_full (wavelength : String) (fl : Img) : Mask × ℕ :=
  if hasTL wavelength then (fl.map (fun row => row.map (fun _ => false)), 0)
  else
    let mx := imgMax fl
    let p : ℚ := 15 / 100
    let S := imgGT fl (mx * p)
    segment_loop fl mx 300 p (get_area_of_largest_object S) S

/-- The mask `segment_pharynx` returns. -/
def segment_pharynx (wavelength : String) (fl : Img) : Mask :=
  (segment_pharynx_full wavelength fl).1

/-- How many threshold-search iterations `segment_pharynx` executed. -/
def segment_pharynx_count (wavelength : String) (fl : Img) : ℕ :=
  (segment_pharynx_full wavelength fl).2

/-- First `some` produced by `f` along a list, mirroring the order in
which nested Python `for` loops encounter a raising iteration. -/
def findFirst? (f : α → Option β) : List α → Option β
  | [] => none
  | x :: xs => match f x with
    | some b => some b
    | none => findFirst? f xs

/-- The index-aligned input stacks of the pose normalizer: dimension
sizes plus the per-(animal, wavelength, pair) frames. -/
structure InputStacks where
  animals : ℕ
  wavelengths : List String
  pairs : List ℕ
  fl : ℕ → String → ℕ → Img
  seg : ℕ → String → ℕ → Mask

/-- The first `(animal, wavelength, pair)` triple, in loop order, whose
reference-wavelength mask has no foreground — the point where
`regionprops(label(reference_seg))[0]` raises `IndexError` and the source
re-raises `ValueError`. -/
def firstEmptyRef (s : InputStacks) (refWvl : String) : Option (ℕ × String × ℕ) :=
  findFirst? (fun a =>
    findFirst? (fun w =>
      findFirst? (fun p =>
        if (foregroundPixels (s.seg a refWvl p)).isEmpty then some (a, w, p) else none)
        s.pairs)
      s.wavelengths)
    (List.range s.animals)

/-- `true` on `Except.ok`. -/
def exceptIsOk : Except String α → Bool
  | .ok _ => true
  | .error _ => false

/-- `center_and_rotate_pharynxes(fl_images, seg_images, reference_wavelength)`.

The numeric warp (translation to the reference centroid followed by the
orientation-aligning rotation, bilinear for fluorescence and nearest
neighbor for masks) is abstracted by `rotFl`/`rotSeg`, which receive the
reference mask the transform is derived from and the frame to transform;
the claims below concern only the error behavior, which is exact: the
call fails — with the source's `ValueError` message — exactly at the
first loop iteration whose reference mask is empty. -/
def center_and_rotate_pharynxes (rotFl : Mask → Img → Img) (rotSeg : Mask → Mask → Mask)
    (s : InputStacks) (refWvl : String) :
    Except String ((ℕ → String → ℕ → Img) × (ℕ → String → ℕ → Mask)) :=
  match firstEmptyRef s refWvl with
  | some t =>
    .error s!"No binary objects found in image @ [idx={t.1} ; wvl={t.2.1} ; pair={t.2.2}]"
  | none =>
    .ok (fun a w p => rotFl (s.seg a refWvl p) (s.fl a w p),
         fun a w p => rotSeg (s.seg a refWvl p) (s.seg a w p))

/-- Identity stand-in for the abstract fluorescence warp kernel. -/
def idRotFl : Mask → Img → Img := fun _ i => i

/-- Identity stand-in for the abstract mask warp kernel. -/
def idRotSeg : Mask → Mask → Mask := fun _ m => m

/-- A one-animal, one-wavelength, one-pair stack whose reference mask has
foreground. -/
def oneFrameStacks : InputStacks :=
  ⟨1, ["410"], [0], fun _ _ _ => [[1]], fun _ _ _ => [[true]]⟩

theorem length_linspaceQ (a b : ℚ) (n : ℕ) : (linspaceQ a b n).length = n := by
  unfold linspaceQ
  split
  · simp [*]
  · split
    · simp [*]
    · rw [List.length_map, List.length_range]

theorem length_swapSegments (l : List (ℚ × ℚ × ℚ × ℚ)) :
    (swapSegments l).length = l.length := by
  induction l with
  | nil => rfl
  | cons a rest ih =>
    obtain ⟨x0, x1, y0, y1⟩ := a
    simp [swapSegments, ih]

theorem findFirst?_isSome_iff (f : α → Option β) (l : List α) :
    (findFirst? f l).isSome = true ↔ ∃ x ∈ l, (f x).isSome = true := by
  induction l with
  | nil => simp [findFirst?]
  | cons x xs ih =>
    simp only [findFirst?]
    cases h : f x <;> simp [h, ih]

/-- C8: for every mask with no foreground pixel (hence no foreground
connected component), `calculate_midline` returns `None` instead of
raising: the `IndexError` from `regionprops(...)[0]` is caught and mapped
to `None`. -/
theorem calculate_midline_empty_none (fitFn : List ℕ → List ℕ → ℕ → List ℚ)
    (mask : Mask) (degree pad : ℕ) (h : foregroundPixels mask = []) :
    calculate_midline fitFn mask degree pad = none := by
  unfold calculate_midline
  rw [h]
  rfl

theorem calculate_midline_empty_none_witness :
    calculate_midline trivialFit [[false, false]] 4 10 = none :=
  calculate_midline_empty_none trivialFit [[false, false]] 4 10 (by decide)

/-- C1: evaluating `calculate_midline` at a single-component mask whose
foreground pixel sits at row 3, column 1 (with `pad = 10`).  The source
unpacks the bounding box as `left_bound, _, _, right_bound = rp.bbox`, so
`left_bound` is `min_row = 3` and the resulting domain is `[-7, 12]`,
whereas the claimed column-edge bounds give `[-9, 12]`: the fit domain
does not cover the object's horizontal extent minus pad on the left. -/
theorem calculate_midline_domain_bug (fitFn : List ℕ → List ℕ → ℕ → List ℚ) :
    (calculate_midline fitFn maskRowColSplit 4 10).map Midline.domain = some (-7, 12)
      ∧ spec_midline_domain maskRowColSplit 10 = some (-9, 12) := by
  have h1 : calculate_midline fitFn maskRowColSplit 4 10
      = some ⟨(((3 : ℕ) : ℚ) - ((10 : ℕ) : ℚ), ((2 : ℕ) : ℚ) + ((10 : ℕ) : ℚ)),
              fitFn [1] [3] 4⟩ := rfl
  have h2 : spec_midline_domain maskRowColSplit 10
      = some (((1 : ℕ) : ℚ) - ((10 : ℕ) : ℚ), ((2 : ℕ) : ℚ) + ((10 : ℕ) : ℚ)) := rfl
  rw [h1, h2]
  norm_num [Midline.domain]

/-- C3: evaluating `normalize_images_single_wvl` with `percent_to_clip = 0`
on a one-frame, four-position profile.  `idx = 0` makes the slice
`profiles[:, 0:-0]` empty, so the min/max reduction raises instead of
using the full profile, and the `clip_percent = 0` window (empty) does not
contain the window of a larger clip percentage. -/
theorem normalize_clip_zero_bug :
    normalize_images_single_wvl [[[1, 2], [3, 4]]] [[1, 2, 3, 4]] 0
        = .error "zero-size array to reduction operation minimum which has no identity"
      ∧ clip_window 4 0 = []
      ∧ 1 ∈ clip_window 4 30 ∧ 1 ∉ clip_window 4 0 := by
  have hz : (pyInt (((4 : ℕ) : ℚ) * 0 / 100)).toNat = 0 := by
    norm_num [pyInt]
  have ht : (pyInt (((4 : ℕ) : ℚ) * 30 / 100)).toNat = 1 := by
    norm_num [pyInt]
  refine ⟨?_, ?_, ?_, ?_⟩
  · have hlen : (pyInt ((([(1 : ℚ), 2, 3, 4].length : ℕ) : ℚ) * 0 / 100)).toNat = 0 := by
      norm_num [pyInt]
    simp only [normalize_images_single_wvl, List.head?, Option.elim, hlen]
    rfl
  · simp only [clip_window, hz]
    rfl
  · simp only [clip_window, ht]
    decide
  · simp only [clip_window, hz]
    decide

/-- C2 counterexample: with a null midline (or any other sampling
failure), `measure_under_midline` returns `np.zeros((1, n_points))`, a
rank-2 array — not a 1-D sequence of `n_points` elements matching the
shape of a successful sampling result, which is rank 1. -/
theorem measure_fallback_not_one_d :
    measure_under_midline zeroFn oneFn zeroFn onePdf coordImg none 3 0 1 1 true
        = NDArr.d2 [[0, 0, 0]]
      ∧ NDArr.isOneD (measure_under_midline zeroFn oneFn zeroFn onePdf coordImg none 3 0 1 1 true)
          = false
      ∧ NDArr.isOneD
          (measure_under_midline zeroFn oneFn zeroFn onePdf coordImg (some midA) 3 0 1 1 true)
          = true :=
  ⟨by decide, by decide, by decide⟩

/-- C2 (amended): whenever the sampling body fails — null midline, or the
zero-weight fault in the band average — `measure_under_midline` returns
the all-zero rank-2 array of shape `(1, n_points)` (containing `n_points`
zeros) and never propagates the exception. -/
theorem measure_fallback_zero_shape (sinF cosF atanF : ℚ → ℚ) (pdfF : ℚ → ℚ → ℚ)
    (fl : ℚ → ℚ → ℚ) (mid : Option Midline) (n_points thickness order : ℕ)
    (norm_scale : ℚ) (flatten : Bool)
    (h : measure_under_midline_try sinF cosF atanF pdfF fl mid n_points thickness order
          norm_scale flatten = none) :
    measure_under_midline sinF cosF atanF pdfF fl mid n_points thickness order
        norm_scale flatten
      = NDArr.d2 [List.replicate n_points 0] := by
  unfold measure_under_midline
  rw [h]
  rfl

theorem measure_fallback_zero_shape_witness :
    measure_under_midline zeroFn oneFn zeroFn onePdf coordImg none 5 0 1 1 true
      = NDArr.d2 [List.replicate 5 0] :=
  measure_fallback_zero_shape zeroFn oneFn zeroFn onePdf coordImg none 5 0 1 1 true rfl

/-- C6: after the swap-correction step every normal segment has its first
endpoint's vertical coordinate ≥ its second endpoint's, and the step is
exactly "swap both coordinates of the endpoints when the first endpoint's
`y` was smaller, leave every other segment unchanged". -/
theorem swap_segments_consistent (segs : List (ℚ × ℚ × ℚ × ℚ)) :
    swapSegments segs
        = segs.map (fun s => if s.2.2.1 < s.2.2.2 then (s.2.1, s.1, s.2.2.2, s.2.2.1) else s)
      ∧ ∀ s ∈ swapSegments segs, s.2.2.2 ≤ s.2.2.1 := by
  constructor
  · induction segs with
    | nil => rfl
    | cons a rest ih =>
      obtain ⟨x0, x1, y0, y1⟩ := a
      simp only [swapSegments, List.map_cons, ih]
  · induction segs with
    | nil => intro s hs; simp [swapSegments] at hs
    | cons a rest ih =>
      obtain ⟨x0, x1, y0, y1⟩ := a
      intro s hs
      simp only [swapSegments, List.mem_cons] at hs
      rcases hs with h | h
      · subst h
        split
        · next hy => exact le_of_lt hy
        · next hy => exact le_of_not_lt hy
      · exact ih s h

theorem swap_segments_consistent_witness :
    ((1 : ℚ), (0 : ℚ), (5 : ℚ), (2 : ℚ)) ∈ swapSegments [((0 : ℚ), 1, 2, 5)]
      ∧ ((1 : ℚ), (0 : ℚ), (5 : ℚ), (2 : ℚ)).2.2.2 ≤ ((1 : ℚ), (0 : ℚ), (5 : ℚ), (2 : ℚ)).2.2.1 :=
  ⟨by decide, (swap_segments_consistent [((0 : ℚ), 1, 2, 5)]).2 (1, 0, 5, 2) (by decide)⟩

theorem map_const_eq_replicate (l : List α) (c : β) :
    l.map (fun _ => c) = List.replicate l.length c := by
  induction l with
  | nil => rfl
  | cons a t ih => simp [ih, List.replicate_succ]

theorem map_length_zipzip (fl : ℚ → ℚ → ℚ) (v0 v1 w0 w1 : List ℚ) (num : ℕ) :
    (List.zipWith (List.zipWith fl) (linspaceVecs v0 v1 num) (linspaceVecs w0 w1 num)).map
        List.length
      = List.replicate num (min (min v0.length v1.length) (min w0.length w1.length)) := by
  unfold linspaceVecs
  rw [List.zipWith_map, List.zipWith_same, List.map_map]
  simp only [Function.comp_def, List.length_zipWith]
  rw [map_const_eq_replicate, List.length_range]

/-- C4: for every non-null midline, zero-thickness sampling returns a 1-D
profile of exactly `n_points` entries; nonzero thickness with
`flatten = true` likewise returns a 1-D profile of `n_points` entries
(given the strictly positive Gaussian weights); nonzero thickness with
`flatten = false` returns the unreduced 2-D band with `thickness` rows of
`n_points` samples each. -/
theorem measure_under_midline_shapes (sinF cosF atanF : ℚ → ℚ) (pdfF : ℚ → ℚ → ℚ)
    (fl : ℚ → ℚ → ℚ) (m : Midline) (n_points thickness order : ℕ) (norm_scale : ℚ)
    (flatten : Bool) (hpdf : ∀ x s, 0 < pdfF x s) :
    (thickness = 0 →
      NDArr.isOneD (measure_under_midline sinF cosF atanF pdfF fl (some m) n_points
          thickness order norm_scale flatten) = true
      ∧ NDArr.rowLengths (measure_under_midline sinF cosF atanF pdfF fl (some m) n_points
          thickness order norm_scale flatten) = [n_points])
    ∧ (thickness ≠ 0 → flatten = true →
      NDArr.isOneD (measure_under_midline sinF cosF atanF pdfF fl (some m) n_points
          thickness order norm_scale flatten) = true
      ∧ NDArr.rowLengths (measure_under_midline sinF cosF atanF pdfF fl (some m) n_points
          thickness order norm_scale flatten) = [n_points])
    ∧ (thickness ≠ 0 → flatten = false →
      NDArr.isOneD (measure_under_midline sinF cosF atanF pdfF fl (some m) n_points
          thickness order norm_scale flatten) = false
      ∧ NDArr.rowLengths (measure_under_midline sinF cosF atanF pdfF fl (some m) n_points
          thickness order norm_scale flatten) = List.replicate thickness n_points) := by
  refine ⟨?_, ?_, ?_⟩
  · intro h0
    subst h0
    constructor
    · simp [measure_under_midline, measure_under_midline_try, NDArr.isOneD]
    · simp [measure_under_midline, measure_under_midline_try, NDArr.rowLengths,
        Midline.linspaceXs, length_linspaceQ]
  · intro hne hfl
    subst hfl
    have hsum : 0 < ((linspaceQ (-1) 1 thickness).map (fun x => pdfF x norm_scale)).sum := by
      refine List.sum_pos _ ?_ ?_
      · intro x hx
        obtain ⟨y, hy, rfl⟩ := List.mem_map.mp hx
        exact hpdf y norm_scale
      · have hl : ((linspaceQ (-1) 1 thickness).map (fun x => pdfF x norm_scale)).length
            = thickness := by
          rw [List.length_map, length_linspaceQ]
        intro hnil
        rw [hnil] at hl
        simp at hl
        omega
    simp only [measure_under_midline, measure_under_midline_try]
    rw [if_neg hne]
    constructor
    · simp [Option.getD, NDArr.isOneD, hsum.ne']
    · simp [Option.getD, NDArr.rowLengths, weightedColAverage, hsum.ne']
  · intro hne hfl
    subst hfl
    simp only [measure_under_midline, measure_under_midline_try]
    rw [if_neg hne]
    constructor
    · simp [Option.getD, NDArr.isOneD]
    · simp only [Bool.false_eq_true, if_false, Option.getD_some, NDArr.rowLengths]
      rw [map_length_zipzip]
      simp [length_swapSegments, List.length_zipWith, List.length_zip,
        Midline.linspaceXs, length_linspaceQ]

theorem measure_under_midline_shapes_witness :
    NDArr.isOneD (measure_under_midline zeroFn oneFn zeroFn onePdf coordImg (some midA)
        1 2 1 1 true) = true
      ∧ NDArr.rowLengths (measure_under_midline zeroFn oneFn zeroFn onePdf coordImg (some midA)
        1 2 1 1 true) = [1] :=
  (measure_under_midline_shapes zeroFn oneFn zeroFn onePdf coordImg midA 1 2 1 1 true
    (fun _ _ => one_pos)).2.1 (by decide) rfl

/-- C5: pose normalization fails — with the source's
"No binary objects found" `ValueError` — exactly when some
(animal, pair)'s reference-wavelength mask has zero foreground pixels,
and completes without this error when every reference mask has
foreground.  (The wavelength axis is assumed nonempty: with no
wavelengths the loop body never runs.) -/
theorem center_and_rotate_error_iff (rotFl : Mask → Img → Img) (rotSeg : Mask → Mask → Mask)
    (s : InputStacks) (refWvl : String) (h : s.wavelengths ≠ []) :
    exceptIsOk (center_and_rotate_pharynxes rotFl rotSeg s refWvl) = false
      ↔ ∃ a ∈ List.range s.animals, ∃ p ∈ s.pairs,
          foregroundPixels (s.seg a refWvl p) = [] := by
  have key : (firstEmptyRef s refWvl).isSome = true
      ↔ ∃ a ∈ List.range s.animals, ∃ p ∈ s.pairs,
          foregroundPixels (s.seg a refWvl p) = [] := by
    unfold firstEmptyRef
    rw [findFirst?_isSome_iff]
    constructor
    · rintro ⟨a, ha, hsome⟩
      rw [findFirst?_isSome_iff] at hsome
      obtain ⟨w, hw, hsome⟩ := hsome
      rw [findFirst?_isSome_iff] at hsome
      obtain ⟨p, hp, hsome⟩ := hsome
      refine ⟨a, ha, p, hp, ?_⟩
      by_cases hfg : (foregroundPixels (s.seg a refWvl p)).isEmpty
      · exact List.isEmpty_iff.mp hfg
      · simp [hfg] at hsome
    · rintro ⟨a, ha, p, hp, hfg⟩
      obtain ⟨w, hw⟩ := List.exists_mem_of_ne_nil s.wavelengths h
      refine ⟨a, ha, ?_⟩
      rw [findFirst?_isSome_iff]
      refine ⟨w, hw, ?_⟩
      rw [findFirst?_isSome_iff]
      exact ⟨p, hp, by simp [List.isEmpty_iff, hfg]⟩
  unfold center_and_rotate_pharynxes
  cases hfe : firstEmptyRef s refWvl with
  | none =>
    rw [hfe] at key
    simp only [Option.isSome_none, Bool.false_eq_true, false_iff] at key
    simp only [exceptIsOk, Bool.true_eq_false, false_iff]
    simpa [List.mem_range] using key
  | some t =>
    rw [hfe] at key
    simp only [Option.isSome_some, true_iff] at key
    simp only [exceptIsOk, true_iff]
    simpa [List.mem_range] using key

theorem center_and_rotate_error_iff_witness :
    exceptIsOk (center_and_rotate_pharynxes idRotFl idRotSeg oneFrameStacks "410") = true := by
  have h := center_and_rotate_error_iff idRotFl idRotSeg oneFrameStacks "410" (by decide)
  cases hb : exceptIsOk (center_and_rotate_pharynxes idRotFl idRotSeg oneFrameStacks "410") with
  | false => exact absurd (h.mp hb) (by decide)
  | true => rfl

/-- C7 counterexample: with `frame_specific = false` a measurement channel
named `"560"` is still sampled under its *own* midline (domain starting at
5), not under the reference channel's midline (domain starting at 1): the
broadcast step only rewrites the literal wavelength `"470"`. -/
theorem broadcast_only_470_counter :
    (measure_under_midlines zeroFn oneFn zeroFn onePdf coordStack midsWith560
        1 false 1 0).1 0 "560" 0
      = NDArr.d1 [5]
      ∧ measure_under_midline zeroFn oneFn zeroFn onePdf (coordStack 0 "560" 0)
          (midsWith560 0 "410" 0) 1 0 1 1 true
        = NDArr.d1 [1]
      ∧ NDArr.d1 [(5 : ℚ)] ≠ NDArr.d1 [1] :=
  ⟨by decide, by decide, by decide⟩

/-- C7 (amended): with `frame_specific = true` every frame is sampled
under its own midline; with `frame_specific = false` the channel named
`"470"` is sampled under the `"410"` midline of the same animal/pair,
while every other channel is still sampled under its own midline. -/
theorem measure_under_midlines_channels (sinF cosF atanF : ℚ → ℚ) (pdfF : ℚ → ℚ → ℚ)
    (fl_stack : ℕ → String → ℕ → (ℚ → ℚ → ℚ))
    (midlines : ℕ → String → ℕ → Option Midline)
    (n_points : ℕ) (frame_specific : Bool) (order thickness : ℕ)
    (a : ℕ) (w : String) (p : ℕ) :
    (frame_specific = true →
      (measure_under_midlines sinF cosF atanF pdfF fl_stack midlines n_points
          frame_specific order thickness).1 a w p
        = measure_under_midline sinF cosF atanF pdfF (fl_stack a w p) (midlines a w p)
            n_points thickness order 1 true)
    ∧ (frame_specific = false →
      (measure_under_midlines sinF cosF atanF pdfF fl_stack midlines n_points
          frame_specific order thickness).1 a "470" p
        = measure_under_midline sinF cosF atanF pdfF (fl_stack a "470" p) (midlines a "410" p)
            n_points thickness order 1 true)
    ∧ (frame_specific = false → w ≠ "470" →
      (measure_under_midlines sinF cosF atanF pdfF fl_stack midlines n_points
          frame_specific order thickness).1 a w p
        = measure_under_midline sinF cosF atanF pdfF (fl_stack a w p) (midlines a w p)
            n_points thickness order 1 true) := by
  refine ⟨?_, ?_, ?_⟩
  · intro hfs
    subst hfs
    rfl
  · intro hfs
    subst hfs
    simp [measure_under_midlines, broadcast_ref_midlines]
  · intro hfs hw
    subst hfs
    simp [measure_under_midlines, broadcast_ref_midlines, hw]

theorem measure_under_midlines_channels_witness :
    (measure_under_midlines zeroFn oneFn zeroFn onePdf coordStack midsWith560
        1 false 1 0).1 0 "560" 0
      = measure_under_midline zeroFn oneFn zeroFn onePdf (coordStack 0 "560" 0)
          (midsWith560 0 "560" 0) 1 0 1 1 true :=
  (measure_under_midlines_channels zeroFn oneFn zeroFn onePdf coordStack midsWith560
    1 false 1 0 0 "560" 0).2.2 rfl (by decide)

/-- C9 counterexample: with `frame_specific = false` (the default),
`measure_under_midlines` mutates the caller's midline collection: after
the call the `"470"` entry no longer equals its value before the call. -/
theorem midlines_mutated_counter :
    (measure_under_midlines zeroFn oneFn zeroFn onePdf coordStack midsWith470
        1 false 1 0).2 0 "470" 0
      ≠ midsWith470 0 "470" 0 := by
  decide

/-- C9 (amended): `measure_under_midlines` leaves its `midlines` argument
unchanged when `frame_specific = true`; when `frame_specific = false` it
overwrites, in the caller's collection, each (animal, pair)'s `"470"`
midline with the corresponding `"410"` midline, and leaves every other
wavelength's entries unchanged. -/
theorem measure_under_midlines_state (sinF cosF atanF : ℚ → ℚ) (pdfF : ℚ → ℚ → ℚ)
    (fl_stack : ℕ → String → ℕ → (ℚ → ℚ → ℚ))
    (midlines : ℕ → String → ℕ → Option Midline)
    (n_points : ℕ) (frame_specific : Bool) (order thickness : ℕ)
    (a : ℕ) (w : String) (p : ℕ) :
    (frame_specific = true →
      (measure_under_midlines sinF cosF atanF pdfF fl_stack midlines n_points
          frame_specific order thickness).2 = midlines)
    ∧ (frame_specific = false →
      (measure_under_midlines sinF cosF atanF pdfF fl_stack midlines n_points
          frame_specific order thickness).2 a "470" p = midlines a "410" p)
    ∧ (frame_specific = false → w ≠ "470" →
      (measure_under_midlines sinF cosF atanF pdfF fl_stack midlines n_points
          frame_specific order thickness).2 a w p = midlines a w p) := by
  refine ⟨?_, ?_, ?_⟩
  · intro hfs
    subst hfs
    rfl
  · intro hfs
    subst hfs
    simp [measure_under_midlines, broadcast_ref_midlines]
  · intro hfs hw
    subst hfs
    simp [measure_under_midlines, broadcast_ref_midlines, hw]

theorem measure_under_midlines_state_witness :
    (measure_under_midlines zeroFn oneFn zeroFn onePdf coordStack midsWith470
        1 true 1 0).2 = midsWith470 :=
  (measure_under_midlines_state zeroFn oneFn zeroFn onePdf coordStack midsWith470
    1 true 1 0 0 "470" 0).1 rfl

theorem maskShape_imgGT (fl : Img) (t : ℚ) : maskShape (imgGT fl t) = imgShape fl := by
  simp [maskShape, imgGT, imgShape, List.map_map, Function.comp_def]

theorem segment_loop_shape (fl : Img) (mx : ℚ) :
    ∀ (fuel : ℕ) (p : ℚ) (area : ℕ) (S : Mask), maskShape S = imgShape fl →
      maskShape (segment_loop fl mx fuel p area S).1 = imgShape fl := by
  intro fuel
  induction fuel with
  | zero => intro p area S h; simpa [segment_loop] using h
  | succ f ih =>
    intro p area S h
    simp only [segment_loop]
    split
    · split
      · exact maskShape_imgGT fl _
      · split
        · exact maskShape_imgGT fl _
        · exact ih _ _ _ (maskShape_imgGT fl _)
    · exact h

theorem segment_loop_count (fl : Img) (mx : ℚ) :
    ∀ (fuel : ℕ) (p : ℚ) (area : ℕ) (S : Mask),
      (segment_loop fl mx fuel p area S).2 ≤ fuel := by
  intro fuel
  induction fuel with
  | zero => intro p area S; simp [segment_loop]
  | succ f ih =>
    intro p area S
    simp only [segment_loop]
    split
    · split
      · simp
      · split
        · simp
        · have := ih (adjust_p p (get_area_of_largest_object S))
            (get_area_of_largest_object S)
            (imgGT fl (mx * adjust_p p (get_area_of_largest_object S)))
          omega
    · simp

/-- C10: `segment_pharynx` terminates on every input with a binary mask of
the input's shape: its threshold search runs at most `max_iter = 300` full
iterations (the iteration counter is part of the embedding), and any loop
step whose updated threshold fraction leaves `[0, 0.9]` returns the
default-threshold mask `fl_img > 0.15 * fl_img.max()` at once. -/
theorem segment_pharynx_spec :
    (∀ (wavelength : String) (fl : Img),
      maskShape (segment_pharynx wavelength fl) = imgShape fl)
    ∧ (∀ (wavelength : String) (fl : Img), segment_pharynx_count wavelength fl ≤ 300)
    ∧ (∀ (fl : Img) (mx : ℚ) (fuel : ℕ) (p : ℚ) (area : ℕ) (S : Mask),
        (area < 350 ∨ 550 < area) →
        (adjust_p p (get_area_of_largest_object S) < 0
          ∨ 9 / 10 < adjust_p p (get_area_of_largest_object S)) →
        (segment_loop fl mx (fuel + 1) p area S).1 = default_seg fl) := by
  refine ⟨?_, ?_, ?_⟩
  · intro wavelength fl
    unfold segment_pharynx segment_pharynx_full
    split
    · simp [maskShape, imgShape, List.map_map, Function.comp_def]
    · exact segment_loop_shape fl _ 300 _ _ _ (maskShape_imgGT fl _)
  · intro wavelength fl
    unfold segment_pharynx_count segment_pharynx_full
    split
    · simp
    · exact segment_loop_count fl _ 300 _ _ _
  · intro fl mx fuel p area S hcond hesc
    simp only [segment_loop]
    rw [if_pos hcond]
    rcases hesc with hlt | hgt
    · rw [if_pos hlt]
    · by_cases hlt : adjust_p p (get_area_of_largest_object S) < 0
      · rw [if_pos hlt]
      · rw [if_neg hlt, if_pos hgt]

theorem segment_pharynx_spec_witness :
    (segment_loop [[(1 : ℚ)]] 1 1 0 0 [[false]]).1 = default_seg [[(1 : ℚ)]] := by
  have harea : get_area_of_largest_object [[false]] = 0 := rfl
  refine segment_pharynx_spec.2.2 [[(1 : ℚ)]] 1 0 0 0 [[false]] (Or.inl (by decide))
    (Or.inl ?_)
  rw [harea]
  norm_num [adjust_p]

end WormAnalysis
